import Mathlib

/-!
Verification development for the credit ledger and accounting engine of
`backend/data/credit.py` (AutoGPT platform backend).

The Python source is shallowly embedded: JSON-like block-input values become
the inductive `PyVal`; the transaction table becomes a list of `Transaction`
records; `datetime` becomes a seven-component lexicographically ordered
record; fallible operations return `Except`.  Machine behaviour that matters
(Python truthiness, Python `==` coercions between `bool` and `int`, `int()`
truncation toward zero) is modelled explicitly.
-/

namespace Credit

/-- JSON-like values used for block `input_data` and cost filters
(`BlockInput = dict[str, Any]` in the source, restricted to the
JSON-serialisable values cost filters are built from). -/
inductive PyVal where
  | none : PyVal
  | bool : Bool → PyVal
  | int : Int → PyVal
  | float : ℚ → PyVal
  | str : String → PyVal
  | list : List PyVal → PyVal
  | dict : List (String × PyVal) → PyVal

/-- Python truthiness: `None`, `False`, `0`, `""`, `[]` and `\x7b\x7d` are falsy,
everything else is truthy.  This is what `not input_data.get(k)` and
`input_data.get(k) and ...` evaluate in the source. -/
def truthy : PyVal → Bool
  | .none => false
  | .bool b => b
  | .int n => n != 0
  | .float q => q != 0
  | .str s => s ≠ ""
  | .list xs => !xs.isEmpty
  | .dict kvs => !kvs.isEmpty

/-- Python `dict.get(k)`: the value stored at `k`, or `None` when the key is
absent.  Dictionaries are association lists without duplicate keys; lookup
takes the first binding. -/
def pyGet (d : List (String × PyVal)) (k : String) : PyVal :=
  match d.find? (fun kv => kv.1 == k) with
  | some kv => kv.2
  | Option.none => .none

/-- Python key-membership `k in d`. -/
def pyHasKey (d : List (String × PyVal)) (k : String) : Bool :=
  (d.find? (fun kv => kv.1 == k)).isSome

mutual

/-- Python `==` on the embedded values: `bool` and `int` compare by numeric
value (`False == 0`, `True == 1`), lists compare element-wise, dicts compare
as finite maps (same size and every binding of one present and equal in the
other; representation lists carry no duplicate keys), and values of
otherwise different types are unequal. -/
def pyEq : PyVal → PyVal → Bool
  | .none, .none => true
  | .bool a, .bool b => a == b
  | .bool a, .int n => (if a then (1 : Int) else 0) == n
  | .int n, .bool a => n == (if a then (1 : Int) else 0)
  | .int a, .int b => a == b
  | .float a, .float b => a == b
  | .float a, .int b => a == (b : ℚ)
  | .int a, .float b => (a : ℚ) == b
  | .float a, .bool b => a == (if b then (1 : ℚ) else 0)
  | .bool a, .float b => (if a then (1 : ℚ) else 0) == b
  | .str a, .str b => a == b
  | .list a, .list b => a.length == b.length && pyEqList a b
  | .dict a, .dict b => a.length == b.length && pyEqDict a b
  | _, _ => false
termination_by a b => sizeOf a + sizeOf b

/-- Element-wise comparison of two Python lists (used under a length guard). -/
def pyEqList : List PyVal → List PyVal → Bool
  | [], _ => true
  | _ :: _, [] => true
  | x :: xs, y :: ys => pyEq x y && pyEqList xs ys
termination_by a b => sizeOf a + sizeOf b

/-- Every binding of `a` is present in `b` with a `pyEq`-equal value. -/
def pyEqDict : List (String × PyVal) → List (String × PyVal) → Bool
  | [], _ => true
  | (k, v) :: rest, b => pyFindEq k v b && pyEqDict rest b
termination_by a b => sizeOf a + sizeOf b

/-- Look up key `k` in `b` and compare the stored value with `v`. -/
def pyFindEq : String → PyVal → List (String × PyVal) → Bool
  | _, _, [] => false
  | k, v, (k2, w) :: rest => if k2 == k then pyEq v w else pyFindEq k v rest
termination_by _ v b => sizeOf v + sizeOf b

end

def sizeOf_pyGet_le (d : List (String × PyVal)) (k : String) :
    sizeOf (pyGet d k) ≤ sizeOf d := by
  induction d with
  | nil => simp [pyGet, List.find?]
  | cons kv rest ih =>
    rcases kv with ⟨k2, v⟩
    by_cases h : (k2 == k) = true
    · simp [pyGet, List.find?, h] <;> omega
    · simp only [pyGet, List.find?, h] at ih ⊢
      simp only [Bool.false_eq_true] at *
      calc sizeOf (match List.find? (fun kv => kv.1 == k) rest with
              | some kv => kv.2
              | Option.none => PyVal.none) ≤ sizeOf rest := ih
        _ ≤ sizeOf ((k2, v) :: rest) := by simp <;> omega

mutual

/-- Embedding of `UserCredit._is_cost_filter_match`: if either side is not a
dict, Python `==` decides; otherwise every filter key must satisfy
`(not input_data.get(k) and not v) or (input_data.get(k) and
self._is_cost_filter_match(v, input_data[k]))`. -/
def isCostFilterMatch : PyVal → PyVal → Bool
  | .dict cf, .dict inp => matchKeys cf inp
  | cf, inp => pyEq cf inp
termination_by a b => sizeOf a + sizeOf b

/-- The `all(... for k, v in cost_filter.items())` loop of
`_is_cost_filter_match`, recursing over the filter's bindings. -/
def matchKeys (cf idata : List (String × PyVal)) : Bool :=
  match cf with
  | [] => true
  | (k, v) :: rest =>
      ((!truthy (pyGet idata k) && !truthy v)
        || (truthy (pyGet idata k) && isCostFilterMatch v (pyGet idata k)))
      && matchKeys rest idata
termination_by sizeOf cf + sizeOf idata
decreasing_by
  all_goals simp_wf
  all_goals try omega
  all_goals (have h := sizeOf_pyGet_le idata k; omega)

end

/-- Modelled from the spec: the spec's notion of an "unset/empty" value for
cost-filter matching — "Undefined, null, and empty string are considered as
equal" — i.e. absent (`None`) or the empty string. -/
def specEmpty : PyVal → Bool
  | .none => true
  | .str s => s == ""
  | _ => false

/-- The value an input holds at key `k` for the spec's reading: a non-mapping
input has every key unset (`None`). -/
def specValAt : PyVal → String → PyVal
  | .dict d, k => pyGet d k
  | _, _ => .none

/-- Whether the key is "present in the input" in the spec's reading. -/
def specHasKey : PyVal → String → Bool
  | .dict d, k => pyHasKey d k
  | _, _ => false

def sizeOf_specValAt_le (inp : PyVal) (k : String) :
    sizeOf (specValAt inp k) ≤ sizeOf inp := by
  cases inp with
  | dict d =>
    have h := sizeOf_pyGet_le d k
    simp [specValAt] <;> omega
  | none => simp [specValAt] <;> omega
  | float q => simp [specValAt] <;> omega
  | bool b => simp [specValAt] <;> omega
  | int n => simp [specValAt] <;> omega
  | str s => simp [specValAt] <;> omega
  | list xs => simp [specValAt] <;> omega

mutual

/-- Modelled from the spec: the claim's characterisation of cost-filter
matching — "if the filter is a mapping, every key must either be unset/empty
in both the filter and the input, or present in the input and recursively
match (applied depth-first); if the filter is a scalar, equality is
required." -/
def specMatch : PyVal → PyVal → Bool
  | .dict cf, inp => specMatchKeys cf inp
  | cf, inp => pyEq cf inp
termination_by a b => sizeOf a + sizeOf b

/-- The per-key universal condition of `specMatch` over a mapping filter. -/
def specMatchKeys (cf : List (String × PyVal)) (inp : PyVal) : Bool :=
  match cf with
  | [] => true
  | (k, v) :: rest =>
      ((specEmpty v && specEmpty (specValAt inp k))
        || (specHasKey inp k && specMatch v (specValAt inp k)))
      && specMatchKeys rest inp
termination_by sizeOf cf + sizeOf inp
decreasing_by
  all_goals simp_wf
  all_goals try omega
  all_goals (have h := sizeOf_specValAt_le inp k; omega)

end

/-- Python `int()` applied to a rational: truncation toward zero.  Floats in
the source (`run_time`, `data_size`) are embedded as rationals; `int(x)`
drops the fractional part toward zero. -/
def pyTrunc (q : ℚ) : Int := q.num.tdiv (q.den : Int)

/-- The three cost types of `backend/data/cost.py` (`BlockCostType`):
RUN, SECOND and BYTE. -/
inductive BlockCostType where
  | RUN : BlockCostType
  | SECOND : BlockCostType
  | BYTE : BlockCostType
deriving DecidableEq, BEq, Repr

/-- Modelled from the spec: `BlockCost` of `backend/data/cost.py` (the file
itself is outside the provided sources; its three fields are pinned by their
uses in `credit.py` and by §6 of the spec: `cost_amount`, `cost_filter`,
`cost_type`). -/
structure BlockCost where
  cost_amount : Int
  cost_filter : PyVal
  cost_type : BlockCostType

/-- The `for block_cost in block_costs` loop of `UserCredit._block_usage_cost`:
skip rules whose filter does not match, charge according to the first match,
return `(0, \x7b\x7d)` when the list is exhausted. -/
def costLoop (dataSize runTime : ℚ) (inputData : PyVal) :
    List BlockCost → Int × PyVal
  | [] => (0, .dict [])
  | c :: rest =>
    if !isCostFilterMatch c.cost_filter inputData then
      costLoop dataSize runTime inputData rest
    else
      match c.cost_type with
      | .RUN => (c.cost_amount, c.cost_filter)
      | .SECOND => (pyTrunc (runTime * (c.cost_amount : ℚ)), c.cost_filter)
      | .BYTE => (pyTrunc (dataSize * (c.cost_amount : ℚ)), c.cost_filter)

/-- Embedding of `UserCredit._block_usage_cost`.  `blockCosts` is
`BLOCK_COSTS.get(type(block))`: `Option.none` for a block type absent from the
cost table.  `if not block_costs` treats both an absent entry and an empty
rule list as "no cost schedule". -/
def blockUsageCost (blockCosts : Option (List BlockCost)) (inputData : PyVal)
    (dataSize runTime : ℚ) : Int × PyVal :=
  match blockCosts with
  | Option.none => (0, .dict [])
  | some costs =>
    if costs.isEmpty then (0, .dict [])
    else costLoop dataSize runTime inputData costs

/-- Python `datetime` (UTC), compared lexicographically by its seven
components. -/
structure DateTime where
  year : Nat
  month : Nat
  day : Nat
  hour : Nat
  minute : Nat
  second : Nat
  micro : Nat
deriving DecidableEq, Repr

/-- Python `datetime` comparison `a <= b`: lexicographic on
(year, month, day, hour, minute, second, microsecond). -/
def DateTime.leB (a b : DateTime) : Bool :=
  if a.year ≠ b.year then decide (a.year < b.year)
  else if a.month ≠ b.month then decide (a.month < b.month)
  else if a.day ≠ b.day then decide (a.day < b.day)
  else if a.hour ≠ b.hour then decide (a.hour < b.hour)
  else if a.minute ≠ b.minute then decide (a.minute < b.minute)
  else if a.second ≠ b.second then decide (a.second < b.second)
  else decide (a.micro ≤ b.micro)

/-- Strict comparison `a < b`, derived from the total order `leB`. -/
def DateTime.ltB (a b : DateTime) : Bool := !(DateTime.leB b a)

/-- `top_time.replace(day=1, hour=0, minute=0, second=0, microsecond=0)` from
`_get_credits`: the start of the current calendar month. -/
def DateTime.startOfMonth (t : DateTime) : DateTime :=
  { t with day := 1, hour := 0, minute := 0, second := 0, micro := 0 }

/-- Python `datetime.min`: year 1, month 1, day 1, midnight — the sentinel
"no snapshot" timestamp returned by `_get_credits`. -/
def DateTime.pyMin : DateTime := ⟨1, 1, 1, 0, 0, 0, 0⟩

/-- The transaction types of `prisma.enums.CreditTransactionType` used by
`credit.py`. -/
inductive CreditTransactionType where
  | TOP_UP : CreditTransactionType
  | USAGE : CreditTransactionType
deriving DecidableEq, BEq, Repr

/-- A row of the `CreditTransaction` table, with the fields `credit.py`
reads and writes. -/
structure Transaction where
  transactionKey : Option String
  userId : String
  amount : Int
  runningBalance : Option Int
  type : CreditTransactionType
  blockId : Option String
  metadata : PyVal
  isActive : Bool
  createdAt : DateTime

/-- `find_first(where=p, order=createdAt desc)`: the transaction satisfying
`p` with the greatest `createdAt` (the database's order among equal
timestamps is unspecified; the model keeps the earliest-listed one). -/
def findLatest (p : Transaction → Bool) : List Transaction → Option Transaction
  | [] => Option.none
  | t :: rest =>
    let r := findLatest p rest
    if p t then
      match r with
      | Option.none => some t
      | some b => if DateTime.ltB t.createdAt b.createdAt then some b else some t
    else r

/-- The `where` clause of the snapshot query in `_get_credits`: the user's
transactions with `createdAt <= top_time`, `isActive`, and a non-null
`runningBalance`. -/
def snapshotPred (now : DateTime) (uid : String) (t : Transaction) : Bool :=
  t.userId == uid && DateTime.leB t.createdAt now
    && t.isActive && t.runningBalance.isSome

/-- The `where` clause of the fallback `group_by` in `_get_credits`: the
user's active transactions with `createdAt` in `[low_time, top_time]`. -/
def monthPred (lowTime now : DateTime) (uid : String) (t : Transaction) :
    Bool :=
  t.userId == uid && DateTime.leB lowTime t.createdAt
    && DateTime.leB t.createdAt now && t.isActive

/-- Embedding of `UserCreditBase._get_credits`: return the most recent active
snapshot (`running_balance` present, `created_at <= now`) for the user, or
fall back to summing the amounts of the user's active transactions in
`[start of current month, now]`, with `datetime.min` as snapshot time. -/
def getCredits (now : DateTime) (txs : List Transaction) (uid : String) :
    Int × DateTime :=
  match findLatest (snapshotPred now uid) txs with
  | some snapshot => (snapshot.runningBalance.getD 0, snapshot.createdAt)
  | Option.none =>
    (((txs.filter (monthPred (DateTime.startOfMonth now) now uid)).map
        (fun t => t.amount)).sum, DateTime.pyMin)

/-- The per-user advisory lock name `usr_trx_\x7buser_id\x7d` of
`db.locked_transaction`. -/
def userLock (uid : String) : String := "usr_trx_" ++ uid

/-- Embedding of `UserCreditBase._add_transaction`: under the user's lock,
resolve the balance, reject a debit exceeding it before anything is written,
otherwise append one transaction carrying `running_balance = balance + amount`
and return the new balance. -/
def addTransaction (now : DateTime) (txs : List Transaction) (uid : String)
    (amount : Int) (ttype : CreditTransactionType) (isActive : Bool)
    (transactionKey : Option String) (blockId : Option String)
    (metadata : PyVal) : Except String (List Transaction × Int) :=
  let userBalance := (getCredits now txs uid).1
  if amount < 0 ∧ userBalance < |amount| then
    .error ("Insufficient balance for user " ++ uid)
  else
    .ok (txs ++ [{ transactionKey := transactionKey
                   userId := uid
                   amount := amount
                   runningBalance := some (userBalance + amount)
                   type := ttype
                   blockId := blockId
                   metadata := metadata
                   isActive := isActive
                   createdAt := now }], userBalance + amount)

/-- The `creditTransactionIdentifier` composite key filter of
`_enable_transaction`: match on `(transactionKey, userId)`. -/
def identifierPred (transactionKey : String) (uid : String)
    (t : Transaction) : Bool :=
  t.transactionKey == some transactionKey && t.userId == uid

/-- The `update(data=...)` of `_enable_transaction`: flip the row to active,
store the freshly computed `running_balance`, and rewrite `createdAt` and
`metadata`. -/
def enableUpdate (now : DateTime) (newBalance : Int) (metadata : PyVal)
    (t2 : Transaction) : Transaction :=
  { t2 with isActive := true
            runningBalance := some newBalance
            createdAt := now
            metadata := metadata }

/-- Embedding of `UserCreditBase._enable_transaction`: look the transaction up
by `(transaction_key, user_id)` (`find_first_or_raise` errors when absent),
return unchanged when already active, otherwise update it under the user's
lock to active, with `running_balance` computed from the balance at
activation time, `created_at` rewritten to now, and the new metadata. -/
def enableTransaction (now : DateTime) (txs : List Transaction)
    (transactionKey : String) (uid : String) (metadata : PyVal) :
    Except String (List Transaction) :=
  match txs.find? (identifierPred transactionKey uid) with
  | Option.none => .error "RecordNotFound"
  | some t =>
    if t.isActive then .ok txs
    else
      let userBalance := (getCredits now txs uid).1
      .ok (txs.map (fun t2 =>
        if identifierPred transactionKey uid t2 then
          enableUpdate now (userBalance + t.amount) metadata t2
        else t2))

/-- Embedding of `UserCredit.top_up_credits`: reject a negative amount before
anything else, then add an active TOP_UP transaction. -/
def topUpCredits (now : DateTime) (txs : List Transaction) (uid : String)
    (amount : Int) : Except String (List Transaction) :=
  if amount < 0 then .error "Top up amount must not be negative"
  else
    match addTransaction now txs uid amount .TOP_UP true Option.none
        Option.none (.dict []) with
    | .error e => .error e
    | .ok (txs2, _) => .ok txs2

/-- A call made to the external payment gateway (Stripe), recorded so that
theorems can state whether an operation contacted the gateway. -/
structure GatewayCall where
  amount : Int

/-- Embedding of `UserCredit.top_up_intent`: create a checkout session at the
gateway first (no local validation of `amount`), then stake a pending TOP_UP
transaction keyed by the session id and return the session url.  The session
the gateway would return is passed in as `sessionId`/`sessionUrl`. -/
def topUpIntent (now : DateTime) (sessionId sessionUrl : String)
    (txs : List Transaction) (uid : String) (amount : Int) :
    List GatewayCall × Except String (List Transaction × String) :=
  let calls := [({ amount := amount } : GatewayCall)]
  match addTransaction now txs uid amount .TOP_UP false (some sessionId)
      Option.none (.dict [("checkout_session", .str sessionId)]) with
  | .error e => (calls, .error e)
  | .ok (txs2, _) => (calls, .ok (txs2, sessionUrl))

/-- Embedding of `UserCredit.fulfill_checkout`: validate that exactly one of
`session_id`/`user_id` is given, find the most recent inactive TOP_UP
transaction for that key (`find_first_or_raise` errors when none exists — the
`if not credit_transaction: return` guard in the source is unreachable after
it), re-query the gateway (`gw`) for the payment status and activate the
transaction only on `paid` or `no_payment_required`. -/
def fulfillCheckout (now : DateTime) (gw : String → String)
    (txs : List Transaction) (sessionId userId : Option String) :
    Except String (List Transaction) :=
  if (sessionId = Option.none ∧ userId = Option.none)
      ∨ (sessionId ≠ Option.none ∧ userId ≠ Option.none) then
    .error "Either session_id or user_id must be provided"
  else
    match findLatest (fun t => t.type == .TOP_UP && t.isActive == false
        && (match sessionId with
            | some s => t.transactionKey == some s
            | Option.none => true)
        && (match userId with
            | some u => t.userId == u
            | Option.none => true)) txs with
    | Option.none => .error "RecordNotFound"
    | some ct =>
      let key := ct.transactionKey.getD ""
      let status := gw key
      if status == "paid" || status == "no_payment_required" then
        enableTransaction now txs key ct.userId
          (.dict [("checkout_session", .str status)])
      else .ok txs

/-- Python `str(n)` zero-padded to two digits, as in an ISO date. -/
def pad2 (n : Nat) : String := if n < 10 then "0" ++ toString n else toString n

/-- Python `str(n)` zero-padded to four digits, as in an ISO date's year. -/
def pad4 (n : Nat) : String :=
  if n < 10 then "000" ++ toString n
  else if n < 100 then "00" ++ toString n
  else if n < 1000 then "0" ++ toString n
  else toString n

/-- Python `str(date)`: the ISO form `YYYY-MM-DD`. -/
def dateStr (t : DateTime) : String :=
  pad4 t.year ++ "-" ++ pad2 t.month ++ "-" ++ pad2 t.day

/-- The idempotency key `f"MONTHLY-CREDIT-TOP-UP-\x7bcur_time\x7d"` of
`BetaUserCredit.get_credits`, where `cur_time` is today's date. -/
def refillKey (t : DateTime) : String := "MONTHLY-CREDIT-TOP-UP-" ++ dateStr t

/-- Embedding of `BetaUserCredit.get_credits`: return the balance when the
latest snapshot is from the current month; otherwise create (without any
lock) an active refill transaction keyed by today's date, swallowing a
`(userId, transactionKey)` unique violation, and return the refill amount. -/
def betaGetCredits (now : DateTime) (refillAmount : Int)
    (txs : List Transaction) (uid : String) : List Transaction × Int :=
  let res := getCredits now txs uid
  if res.2.year = now.year ∧ res.2.month = now.month then (txs, res.1)
  else
    let key := refillKey now
    if txs.any (fun t => t.transactionKey == some key && t.userId == uid) then
      (txs, refillAmount)
    else
      (txs ++ [{ transactionKey := some key
                 userId := uid
                 amount := refillAmount
                 runningBalance := some refillAmount
                 type := .TOP_UP
                 blockId := Option.none
                 metadata := .dict []
                 isActive := true
                 createdAt := now }], refillAmount)

/-- A write to the `CreditTransaction` table, as seen by the locking
discipline: whether the written row carries a `running_balance`, and which
advisory lock (if any) the writer holds. -/
structure WriteEvent where
  setsRunningBalance : Bool
  lockHeld : Option String
deriving DecidableEq, Repr

/-- The table writes `_add_transaction` performs: none when the balance check
rejects the call, otherwise one `running_balance`-bearing create inside
`locked_transaction(f"usr_trx_\x7buser_id\x7d")`. -/
def addTransactionEvents (now : DateTime) (txs : List Transaction)
    (uid : String) (amount : Int) : List WriteEvent :=
  if amount < 0 ∧ (getCredits now txs uid).1 < |amount| then []
  else [⟨true, some (userLock uid)⟩]

/-- The table writes `_enable_transaction` performs: none when the transaction
is missing or already active, otherwise one `running_balance`-bearing update
inside `locked_transaction(f"usr_trx_\x7buser_id\x7d")`. -/
def enableTransactionEvents (txs : List Transaction)
    (transactionKey : String) (uid : String) : List WriteEvent :=
  match txs.find? (identifierPred transactionKey uid) with
  | Option.none => []
  | some t => if t.isActive then [] else [⟨true, some (userLock uid)⟩]

/-- The table writes `BetaUserCredit.get_credits` performs: none when the
snapshot is current, otherwise one `running_balance`-bearing create attempted
with no `locked_transaction` around it. -/
def betaGetCreditsEvents (now : DateTime) (txs : List Transaction)
    (uid : String) : List WriteEvent :=
  if (getCredits now txs uid).2.year = now.year
      ∧ (getCredits now txs uid).2.month = now.month then []
  else [⟨true, Option.none⟩]

/-! Concrete fixtures used by the counterexample and scenario theorems. -/

/-- 2025-03-10 12:00 UTC: creation time of the pending top-up fixture. -/
def cd0 : DateTime := ⟨2025, 3, 10, 12, 0, 0, 0⟩

/-- 2025-03-11 09:00 UTC: time of the first reconciliation call. -/
def cd1 : DateTime := ⟨2025, 3, 11, 9, 0, 0, 0⟩

/-- 2025-03-12 09:00 UTC: time of the repeated reconciliation call. -/
def cd2 : DateTime := ⟨2025, 3, 12, 9, 0, 0, 0⟩

/-- A pending (inactive, no `running_balance`) TOP_UP of 50 credits staked by
`top_up_intent` for checkout session `cs1`. -/
def csPending : Transaction :=
  { transactionKey := some "cs1"
    userId := "u"
    amount := 50
    runningBalance := Option.none
    type := .TOP_UP
    blockId := Option.none
    metadata := .dict []
    isActive := false
    createdAt := cd0 }

/-- The same transaction after `fulfill_checkout` at `cd1` activated it:
active, `running_balance` 50 (balance 0 at activation time plus the amount),
`createdAt` rewritten to the activation time. -/
def csEnabled : Transaction :=
  { transactionKey := some "cs1"
    userId := "u"
    amount := 50
    runningBalance := some 50
    type := .TOP_UP
    blockId := Option.none
    metadata := .dict [("checkout_session", .str "paid")]
    isActive := true
    createdAt := cd1 }

/-- A gateway whose `retrieve` reports every checkout session as paid. -/
def gwPaid : String → String := fun _ => "paid"

/-- 2025-03-15 00:00 UTC: first Beta `get_credits` call of the month. -/
def cdMar15 : DateTime := ⟨2025, 3, 15, 0, 0, 0, 0⟩

/-- 2025-03-20 00:00 UTC: a later call in the same month. -/
def cd3 : DateTime := ⟨2025, 3, 20, 0, 0, 0, 0⟩

/-- The refill transaction the Beta policy creates on 2025-03-15 for a
configured refill of 500. -/
def rTx : Transaction :=
  { transactionKey := some (refillKey cdMar15)
    userId := "u"
    amount := 500
    runningBalance := some 500
    type := .TOP_UP
    blockId := Option.none
    metadata := .dict []
    isActive := true
    createdAt := cdMar15 }

/-- A flat RUN cost rule of 30 credits, filtered to `model = "gpt-4"`. -/
def bcRun : BlockCost := ⟨30, .dict [("model", .str "gpt-4")], .RUN⟩

/-- A SECOND cost rule of 4 credits per second with the empty filter. -/
def bcSec : BlockCost := ⟨4, .dict [], .SECOND⟩

/-! General lemmas about the embedded order and queries. -/

theorem leB_iff (a b : DateTime) : DateTime.leB a b = true ↔
    (a.year < b.year ∨ (a.year = b.year ∧ (a.month < b.month ∨ (a.month = b.month ∧
     (a.day < b.day ∨ (a.day = b.day ∧ (a.hour < b.hour ∨ (a.hour = b.hour ∧
     (a.minute < b.minute ∨ (a.minute = b.minute ∧ (a.second < b.second ∨
     (a.second = b.second ∧ a.micro ≤ b.micro)))))))))))) := by
  simp only [DateTime.leB]
  split_ifs <;> simp_all <;> omega

theorem leB_refl (a : DateTime) : DateTime.leB a a = true := by
  simp [leB_iff]

theorem leB_trans {a b c : DateTime} (h1 : DateTime.leB a b = true)
    (h2 : DateTime.leB b c = true) : DateTime.leB a c = true := by
  simp only [leB_iff] at *
  omega

theorem ltB_false {a b : DateTime} (h : DateTime.ltB a b = false) :
    DateTime.leB b a = true := by
  simpa [DateTime.ltB] using h

theorem leB_total (a b : DateTime) :
    DateTime.leB a b = true ∨ DateTime.leB b a = true := by
  simp only [leB_iff]
  omega

theorem ltB_true {a b : DateTime} (h : DateTime.ltB a b = true) :
    DateTime.leB a b = true := by
  simp only [DateTime.ltB, Bool.not_eq_true'] at h
  rcases leB_total a b with h1 | h1
  · exact h1
  · rw [h] at h1
    exact absurd h1 (by simp)

theorem findLatest_none {p : Transaction → Bool} {txs : List Transaction}
    (h : findLatest p txs = Option.none) : ∀ t ∈ txs, p t = false := by
  induction txs with
  | nil => simp
  | cons t rest ih =>
    intro t2 ht2
    simp only [findLatest] at h
    by_cases hp : p t = true
    · rw [if_pos hp] at h
      cases hr : findLatest p rest <;> rw [hr] at h <;> simp at h
      split at h <;> simp at h
    · rw [if_neg hp] at h
      rcases List.mem_cons.1 ht2 with rfl | hmem
      · exact Bool.not_eq_true _ ▸ (by simpa using hp)
      · exact ih h t2 hmem

theorem findLatest_mem {p : Transaction → Bool} {txs : List Transaction}
    {b : Transaction} (h : findLatest p txs = some b) :
    b ∈ txs ∧ p b = true := by
  induction txs with
  | nil => simp [findLatest] at h
  | cons t rest ih =>
    simp only [findLatest] at h
    by_cases hp : p t = true
    · rw [if_pos hp] at h
      cases hr : findLatest p rest with
      | none =>
        rw [hr] at h
        simp at h
        subst h
        exact ⟨List.mem_cons_self t rest, hp⟩
      | some b2 =>
        rw [hr] at h
        simp at h
        split at h <;> simp at h <;> subst h
        · rcases ih hr with ⟨hm, hpb⟩
          exact ⟨List.mem_cons_of_mem t hm, hpb⟩
        · exact ⟨List.mem_cons_self t rest, hp⟩
    · rw [if_neg hp] at h
      rcases ih h with ⟨hm, hpb⟩
      exact ⟨List.mem_cons_of_mem t hm, hpb⟩

theorem findLatest_max {p : Transaction → Bool} {txs : List Transaction} :
    ∀ {b : Transaction}, findLatest p txs = some b →
    ∀ t ∈ txs, p t = true → DateTime.leB t.createdAt b.createdAt = true := by
  induction txs with
  | nil => intro b h; simp [findLatest] at h
  | cons t rest ih =>
    intro b h t2 ht2 hp2
    simp only [findLatest] at h
    by_cases hp : p t = true
    · rw [if_pos hp] at h
      cases hr : findLatest p rest with
      | none =>
        rw [hr] at h
        simp at h
        subst h
        rcases List.mem_cons.1 ht2 with rfl | hmem
        · exact leB_refl _
        · exact absurd hp2 (by simp [findLatest_none hr t2 hmem])
      | some b2 =>
        rw [hr] at h
        dsimp only at h
        by_cases hlt : DateTime.ltB t.createdAt b2.createdAt = true
        · rw [if_pos hlt] at h
          simp at h
          subst h
          rcases List.mem_cons.1 ht2 with rfl | hmem
          · exact ltB_true hlt
          · exact ih hr t2 hmem hp2
        · rw [if_neg hlt] at h
          simp at h
          subst h
          rcases List.mem_cons.1 ht2 with rfl | hmem
          · exact leB_refl _
          · exact leB_trans (ih hr t2 hmem hp2)
              (ltB_false (by simp only [Bool.not_eq_true] at hlt; exact hlt))
    · rw [if_neg hp] at h
      rcases List.mem_cons.1 ht2 with rfl | hmem
      · exact absurd hp2 hp
      · exact ih h t2 hmem hp2

theorem snapshotPred_iff (now : DateTime) (uid : String) (t : Transaction) :
    snapshotPred now uid t = true ↔
      (t.userId = uid ∧ DateTime.leB t.createdAt now = true
        ∧ t.isActive = true ∧ t.runningBalance ≠ Option.none) := by
  simp [snapshotPred, Bool.and_eq_true, Option.isSome_iff_ne_none, and_assoc]

/-- C1: `_add_transaction` rejects — with the insufficient-balance error and
before any write, so the returned state is untouched — every call whose
amount is negative with absolute value exceeding the resolved balance; every
call that passes the check appends exactly one transaction whose
`running_balance` is the resolved balance plus the amount, and returns the
new balance `balance + amount`. -/
theorem C1_add_transaction_balance_guard (now : DateTime)
    (txs : List Transaction) (uid : String) (amount : Int)
    (ttype : CreditTransactionType) (act : Bool) (key bid : Option String)
    (md : PyVal) :
    (amount < 0 ∧ (getCredits now txs uid).1 < |amount| →
      addTransaction now txs uid amount ttype act key bid md =
        .error ("Insufficient balance for user " ++ uid)) ∧
    (¬(amount < 0 ∧ (getCredits now txs uid).1 < |amount|) →
      ∃ tx : Transaction,
        addTransaction now txs uid amount ttype act key bid md =
          .ok (txs ++ [tx], (getCredits now txs uid).1 + amount) ∧
        tx.runningBalance = some ((getCredits now txs uid).1 + amount) ∧
        tx.amount = amount ∧ tx.userId = uid ∧ tx.type = ttype ∧
        tx.isActive = act ∧ tx.createdAt = now) := by
  constructor
  · intro h
    simp only [addTransaction]
    rw [if_pos h]
  · intro h
    refine ⟨⟨key, uid, amount, some ((getCredits now txs uid).1 + amount),
      ttype, bid, md, act, now⟩, ?_, rfl, rfl, rfl, rfl, rfl, rfl⟩
    simp only [addTransaction]
    rw [if_neg h]

/-- Witness for C1: against the empty ledger, a debit of 5 fails with the
insufficient-balance error, while a credit of 7 appends one transaction with
running balance 7 and returns 7. -/
theorem C1_add_transaction_balance_guard_witness :
    addTransaction cd1 [] "u" (-5) .USAGE true Option.none Option.none
        (.dict []) = .error "Insufficient balance for user u" ∧
    ∃ tx : Transaction,
      addTransaction cd1 [] "u" 7 .TOP_UP true Option.none Option.none
          (.dict []) = .ok ([] ++ [tx], (getCredits cd1 [] "u").1 + 7) ∧
      tx.runningBalance = some ((getCredits cd1 [] "u").1 + 7) ∧
      tx.amount = 7 ∧ tx.userId = "u" ∧ tx.type = .TOP_UP ∧
      tx.isActive = true ∧ tx.createdAt = cd1 := by
  constructor
  · exact (C1_add_transaction_balance_guard cd1 [] "u" (-5) .USAGE true
      Option.none Option.none (.dict [])).1 (by decide)
  · exact (C1_add_transaction_balance_guard cd1 [] "u" 7 .TOP_UP true
      Option.none Option.none (.dict [])).2 (by decide)

/-- C3: `_get_credits` returns the `running_balance` (with `or 0` defaulting)
and `created_at` of the most recent transaction of the user that is active,
has a non-null `running_balance` and `created_at <= now`, whenever the
snapshot query finds one — and that result is indeed user-owned, active,
balance-bearing, not in the future, and `createdAt`-maximal among all such
transactions.  When no such transaction exists, it returns the sum of
amounts of the user's active transactions with `created_at` in
`[start of current month, now]` (`0` for the empty ledger), paired with the
sentinel `datetime.min`. -/
theorem C3_get_credits_resolution (now : DateTime) (txs : List Transaction)
    (uid : String) :
    (∀ snap, findLatest (snapshotPred now uid) txs = some snap →
      snap ∈ txs ∧ snap.userId = uid ∧ snap.isActive = true ∧
      snap.runningBalance ≠ Option.none ∧
      DateTime.leB snap.createdAt now = true ∧
      (∀ t ∈ txs, snapshotPred now uid t = true →
        DateTime.leB t.createdAt snap.createdAt = true) ∧
      getCredits now txs uid = (snap.runningBalance.getD 0, snap.createdAt)) ∧
    (findLatest (snapshotPred now uid) txs = Option.none →
      (∀ t ∈ txs, ¬(t.userId = uid ∧ DateTime.leB t.createdAt now = true ∧
          t.isActive = true ∧ t.runningBalance ≠ Option.none)) ∧
      getCredits now txs uid =
        (((txs.filter (monthPred (DateTime.startOfMonth now) now uid)).map
            (fun t => t.amount)).sum, DateTime.pyMin)) := by
  constructor
  · intro snap h
    rcases findLatest_mem h with ⟨hm, hp⟩
    rcases (snapshotPred_iff now uid snap).1 hp with ⟨h1, h2, h3, h4⟩
    refine ⟨hm, h1, h3, h4, h2, findLatest_max h, ?_⟩
    simp only [getCredits, h]
  · intro h
    constructor
    · intro t ht hc
      have h0 := findLatest_none h t ht
      have h1 := (snapshotPred_iff now uid t).2 hc
      rw [h0] at h1
      exact absurd h1 (by simp)
    · simp only [getCredits, h]

/-- Witness for C3: with a single activated snapshot in the ledger the
resolver returns its running balance and timestamp; against the empty ledger
it returns the empty sum `0` with the sentinel timestamp. -/
theorem C3_get_credits_resolution_witness :
    (csEnabled ∈ [csEnabled] ∧ csEnabled.userId = "u" ∧
      csEnabled.isActive = true ∧ csEnabled.runningBalance ≠ Option.none ∧
      DateTime.leB csEnabled.createdAt cd2 = true ∧
      (∀ t ∈ [csEnabled], snapshotPred cd2 "u" t = true →
        DateTime.leB t.createdAt csEnabled.createdAt = true) ∧
      getCredits cd2 [csEnabled] "u" =
        (csEnabled.runningBalance.getD 0, csEnabled.createdAt)) ∧
    ((∀ t ∈ ([] : List Transaction), ¬(t.userId = "u" ∧
        DateTime.leB t.createdAt cd2 = true ∧ t.isActive = true ∧
        t.runningBalance ≠ Option.none)) ∧
      getCredits cd2 [] "u" =
        ((([].filter (monthPred (DateTime.startOfMonth cd2) cd2 "u")).map
            (fun t => t.amount)).sum, DateTime.pyMin)) :=
  ⟨(C3_get_credits_resolution cd2 [csEnabled] "u").1 csEnabled rfl,
   (C3_get_credits_resolution cd2 [] "u").2 rfl⟩

theorem costLoop_skip_all {idata : PyVal} {costs : List BlockCost}
    (ds rt : ℚ) (h : ∀ c ∈ costs, isCostFilterMatch c.cost_filter idata = false) :
    costLoop ds rt idata costs = (0, .dict []) := by
  induction costs with
  | nil => rfl
  | cons c rest ih =>
    simp only [costLoop]
    rw [h c (List.mem_cons_self c rest)]
    exact ih (fun c2 h2 => h c2 (List.mem_cons_of_mem c h2))

theorem costLoop_first_match {idata : PyVal} {pre : List BlockCost}
    {c : BlockCost} (post : List BlockCost) (ds rt : ℚ)
    (hpre : ∀ c2 ∈ pre, isCostFilterMatch c2.cost_filter idata = false)
    (hc : isCostFilterMatch c.cost_filter idata = true) :
    costLoop ds rt idata (pre ++ c :: post) =
      ((match c.cost_type with
        | .RUN => c.cost_amount
        | .SECOND => pyTrunc (rt * (c.cost_amount : ℚ))
        | .BYTE => pyTrunc (ds * (c.cost_amount : ℚ))), c.cost_filter) := by
  induction pre with
  | nil =>
    simp only [List.nil_append, costLoop]
    rw [hc]
    simp only [Bool.not_true, Bool.false_eq_true, if_false]
    cases c.cost_type <;> rfl
  | cons c2 rest ih =>
    simp only [List.cons_append, costLoop]
    rw [hpre c2 (List.mem_cons_self c2 rest)]
    simp only [Bool.not_false, if_pos]
    exact ih (fun c3 h3 => hpre c3 (List.mem_cons_of_mem c2 h3))

/-- C4: `_block_usage_cost` charges according to the first cost rule whose
filter matches the input — RUN rules flat, SECOND rules `run_time * amount`
truncated toward zero, BYTE rules `data_size * amount` truncated toward zero
(`pyTrunc` is the floor for non-negative values and the ceiling for
non-positive ones) — and yields cost `0` with the empty filter, not an
error, when the block has no registered cost schedule or no rule matches. -/
theorem C4_block_usage_cost_first_match (idata : PyVal) (ds rt : ℚ) :
    blockUsageCost Option.none idata ds rt = (0, .dict []) ∧
    (∀ costs : List BlockCost,
      (∀ c ∈ costs, isCostFilterMatch c.cost_filter idata = false) →
      blockUsageCost (some costs) idata ds rt = (0, .dict [])) ∧
    (∀ pre (c : BlockCost) post,
      (∀ c2 ∈ pre, isCostFilterMatch c2.cost_filter idata = false) →
      isCostFilterMatch c.cost_filter idata = true →
      blockUsageCost (some (pre ++ c :: post)) idata ds rt =
        ((match c.cost_type with
          | .RUN => c.cost_amount
          | .SECOND => pyTrunc (rt * (c.cost_amount : ℚ))
          | .BYTE => pyTrunc (ds * (c.cost_amount : ℚ))), c.cost_filter)) ∧
    (∀ q : ℚ, 0 ≤ q → pyTrunc q = ⌊q⌋) ∧
    (∀ q : ℚ, q ≤ 0 → pyTrunc q = ⌈q⌉) := by
  refine ⟨rfl, ?_, ?_, ?_, ?_⟩
  · intro costs h
    cases costs with
    | nil => rfl
    | cons c rest =>
      simp only [blockUsageCost, List.isEmpty_cons, if_neg]
      exact costLoop_skip_all ds rt h
  · intro pre c post hpre hc
    have hne : (pre ++ c :: post).isEmpty = false := by
      cases pre <;> simp
    simp only [blockUsageCost, hne]
    simpa using costLoop_first_match post ds rt hpre hc
  · intro q hq
    have hnum : 0 ≤ q.num := Rat.num_nonneg.2 hq
    have hden : (0 : Int) ≤ (q.den : Int) := by positivity
    rw [pyTrunc, Int.tdiv_eq_ediv hnum hden, Rat.floor_def]
  · intro q hq
    have hnn : (0 : ℚ) ≤ -q := by linarith
    have hnum : 0 ≤ (-q).num := Rat.num_nonneg.2 hnn
    have hden : (0 : Int) ≤ ((-q).den : Int) := by positivity
    have h1 : pyTrunc q = -pyTrunc (-q) := by
      simp only [pyTrunc, Rat.neg_num, Rat.neg_den, Int.neg_tdiv, neg_neg]
    rw [h1]
    simp only [pyTrunc]
    rw [Int.tdiv_eq_ediv hnum hden, ← Rat.floor_def, ← Int.ceil_neg, neg_neg]

/-- Witness for C4: a RUN rule whose filter does not match the input yields
zero cost with the empty filter; with that rule skipped, the matching SECOND
rule charges `int(2.5 * 4) = 10`; and `pyTrunc` agrees with floor and ceiling
at `7/2` and `-7/2`. -/
theorem C4_block_usage_cost_first_match_witness :
    blockUsageCost (some [bcRun]) (.dict []) 0 0 = (0, .dict []) ∧
    blockUsageCost (some ([bcRun] ++ bcSec :: [])) (.dict []) 1 (5/2) =
      (pyTrunc ((5/2) * ((4 : Int) : ℚ)), bcSec.cost_filter) ∧
    pyTrunc ((5/2) * ((4 : Int) : ℚ)) = 10 ∧
    pyTrunc (7/2) = ⌊(7/2 : ℚ)⌋ ∧
    pyTrunc (-7/2) = ⌈(-7/2 : ℚ)⌉ := by
  have hmiss : ∀ c ∈ [bcRun], isCostFilterMatch c.cost_filter (.dict []) = false := by
    intro c hc
    simp only [List.mem_singleton] at hc
    subst hc
    simp [bcRun, isCostFilterMatch, matchKeys, pyGet, truthy, List.find?]
  refine ⟨?_, ?_, ?_, ?_, ?_⟩
  · exact (C4_block_usage_cost_first_match (.dict []) 0 0).2.1 [bcRun] hmiss
  · have h := (C4_block_usage_cost_first_match (.dict []) 1 (5/2)).2.2.1
      [bcRun] bcSec [] hmiss
      (by simp [bcSec, isCostFilterMatch, matchKeys])
    simpa [bcSec] using h
  · have h10 : ((5 : ℚ)/2 * ((4 : Int) : ℚ)) = 10 := by norm_num
    rw [h10, (C4_block_usage_cost_first_match (.dict []) 0 0).2.2.2.1 10
      (by norm_num)]
    norm_num
  · exact (C4_block_usage_cost_first_match (.dict []) 0 0).2.2.2.1 (7/2)
      (by norm_num)
  · exact (C4_block_usage_cost_first_match (.dict []) 0 0).2.2.2.2 (-7/2)
      (by norm_num)

/-- C5 counterexample: for filter `\x7b"a": \x7b"b": ""\x7d\x7d` and input
`\x7b"a": "hello"\x7d` the claim's characterisation says match (key `a` is
present, and in the recursive step key `b` is unset/empty on both sides), but
the code requires the nested comparison `\x7b"b": ""\x7d == "hello"` to hold
and returns no-match. -/
theorem C5_match_characterisation_counterexample :
    specMatch (.dict [("a", .dict [("b", .str "")])])
      (.dict [("a", .str "hello")]) = true ∧
    isCostFilterMatch (.dict [("a", .dict [("b", .str "")])])
      (.dict [("a", .str "hello")]) = false := by
  constructor
  · simp [specMatch, specMatchKeys, specEmpty, specValAt, specHasKey, pyGet,
      pyHasKey, List.find?]
  · simp [isCostFilterMatch, matchKeys, pyGet, truthy, pyEq, List.find?]

theorem matchKeys_iff (idata : List (String × PyVal))
    (cf : List (String × PyVal)) :
    matchKeys cf idata = true ↔ ∀ kv ∈ cf,
      (truthy (pyGet idata kv.1) = false ∧ truthy kv.2 = false)
      ∨ (truthy (pyGet idata kv.1) = true ∧
         isCostFilterMatch kv.2 (pyGet idata kv.1) = true) := by
  induction cf with
  | nil => simp [matchKeys]
  | cons kv rest ih =>
    rcases kv with ⟨k, v⟩
    simp only [matchKeys, Bool.and_eq_true, Bool.or_eq_true,
      Bool.not_eq_true', List.forall_mem_cons]
    rw [ih]
    try tauto

/-- C5 (amended): cost-filter matching of a mapping filter against a mapping
input is the structural subset test — every filter key's value is falsy in
both filter and input, or truthy in the input and recursively matching; when
either side is not a mapping (including a mapping filter against a scalar
input, as in the counterexample) plain Python equality is required.  The
claim's three examples hold: `\x7b"model": "gpt-4"\x7d` matches the gpt-4
input with an extra `temperature` key, does not match the gpt-3.5 input, and
the empty filter matches every mapping input. -/
theorem C5_cost_filter_match_subset (idata : List (String × PyVal)) :
    (∀ cf : List (String × PyVal),
      isCostFilterMatch (.dict cf) (.dict idata) = true ↔
        ∀ kv ∈ cf, (truthy (pyGet idata kv.1) = false ∧ truthy kv.2 = false)
          ∨ (truthy (pyGet idata kv.1) = true ∧
             isCostFilterMatch kv.2 (pyGet idata kv.1) = true)) ∧
    (∀ cf inp : PyVal, ((∀ d, cf ≠ .dict d) ∨ (∀ d, inp ≠ .dict d)) →
      isCostFilterMatch cf inp = pyEq cf inp) ∧
    isCostFilterMatch (.dict [("model", .str "gpt-4")])
      (.dict [("model", .str "gpt-4"), ("temperature", .float (1/5))]) = true ∧
    isCostFilterMatch (.dict [("model", .str "gpt-4")])
      (.dict [("model", .str "gpt-3.5")]) = false ∧
    isCostFilterMatch (.dict []) (.dict idata) = true := by
  refine ⟨?_, ?_, ?_, ?_, ?_⟩
  · intro cf
    rw [show isCostFilterMatch (.dict cf) (.dict idata) = matchKeys cf idata
      by simp [isCostFilterMatch]]
    exact matchKeys_iff idata cf
  · intro cf inp h
    have hcontra : ∀ (a b : List (String × PyVal)),
        cf = .dict a → inp = .dict b → False := by
      intro a b ha hb
      rcases h with h | h
      · exact h a ha
      · exact h b hb
    cases cf <;> cases inp <;>
      first
        | exact (hcontra _ _ rfl rfl).elim
        | simp [isCostFilterMatch]
  · simp [isCostFilterMatch, matchKeys, pyGet, truthy, pyEq, List.find?]
  · simp [isCostFilterMatch, matchKeys, pyGet, truthy, pyEq, List.find?]
  · simp [isCostFilterMatch, matchKeys]

/-- Witness for C5 (amended): the subset characterisation applied to the
gpt-4 example filter and input. -/
theorem C5_cost_filter_match_subset_witness :
    isCostFilterMatch
        (.dict [("model", .str "gpt-4")])
        (.dict [("model", .str "gpt-4"), ("temperature", .float (1/5))])
      = true ∧
    isCostFilterMatch (.str "x") (.dict [("model", .str "gpt-4")]) =
      pyEq (.str "x") (.dict [("model", .str "gpt-4")]) := by
  constructor
  · exact ((C5_cost_filter_match_subset
        [("model", .str "gpt-4"), ("temperature", .float (1/5))]).1
        [("model", .str "gpt-4")]).2
      (by intro kv hkv
          simp only [List.mem_singleton] at hkv
          subst hkv
          right
          constructor
          · simp [pyGet, truthy, List.find?]
          · simp [isCostFilterMatch, pyGet, pyEq, List.find?])
  · exact (C5_cost_filter_match_subset [("model", .str "gpt-4")]).2.1
      (.str "x") (.dict [("model", .str "gpt-4")])
      (Or.inl (by intro d h; exact PyVal.noConfusion h))

/-- C10: cost-filter matching treats every falsy value — `None`, `False`,
`0`, the empty string, the empty mapping or list — and an absent key
interchangeably as "unset/empty": a filter key with a falsy value is
satisfied by any falsy input value at that key or by the key being absent;
in particular filter `\x7b"n": 0\x7d` matches inputs `\x7b"n": ""\x7d`,
`\x7b"n": False\x7d` and `\x7b\x7d`. -/
theorem C10_falsy_values_interchangeable :
    (truthy .none = false ∧ truthy (.bool false) = false ∧
     truthy (.int 0) = false ∧ truthy (.str "") = false ∧
     truthy (.dict []) = false ∧ truthy (.list []) = false) ∧
    (∀ (k : String) (v : PyVal) rest idata,
      truthy v = false → truthy (pyGet idata k) = false →
      matchKeys ((k, v) :: rest) idata = matchKeys rest idata) ∧
    (∀ (k : String) (v u : PyVal), truthy v = false → truthy u = false →
      isCostFilterMatch (.dict [(k, v)]) (.dict [(k, u)]) = true ∧
      isCostFilterMatch (.dict [(k, v)]) (.dict []) = true) ∧
    isCostFilterMatch (.dict [("n", .int 0)]) (.dict [("n", .str "")]) = true ∧
    isCostFilterMatch (.dict [("n", .int 0)]) (.dict [("n", .bool false)]) = true ∧
    isCostFilterMatch (.dict [("n", .int 0)]) (.dict []) = true := by
  refine ⟨by simp [truthy], ?_, ?_, ?_, ?_, ?_⟩
  · intro k v rest idata hv hi
    simp [matchKeys, hv, hi]
  · intro k v u hv hu
    constructor
    · simp [isCostFilterMatch, matchKeys, pyGet, List.find?, hv, hu]
    · simp [isCostFilterMatch, matchKeys, pyGet, List.find?, hv,
        show truthy PyVal.none = false from rfl]
  · simp [isCostFilterMatch, matchKeys, pyGet, truthy, List.find?]
  · simp [isCostFilterMatch, matchKeys, pyGet, truthy, List.find?]
  · simp [isCostFilterMatch, matchKeys, pyGet, truthy, List.find?]

/-- Witness for C10: the falsy-key rule applied at `k = "n"`, `v = 0`,
`u = ""` and at the input with `n = False`. -/
theorem C10_falsy_values_interchangeable_witness :
    matchKeys [("n", .int 0)] [("n", .bool false)] = matchKeys [] [("n", .bool false)] ∧
    isCostFilterMatch (.dict [("n", .int 0)]) (.dict [("n", .str "")]) = true ∧
    isCostFilterMatch (.dict [("n", .int 0)]) (.dict []) = true := by
  refine ⟨?_, ?_, ?_⟩
  · exact (C10_falsy_values_interchangeable).2.1 "n" (.int 0) []
      [("n", .bool false)] (by simp [truthy])
      (by simp [pyGet, truthy, List.find?])
  · exact ((C10_falsy_values_interchangeable).2.2.1 "n" (.int 0) (.str "")
      (by simp [truthy]) (by simp [truthy])).1
  · exact ((C10_falsy_values_interchangeable).2.2.1 "n" (.int 0) (.str "")
      (by simp [truthy]) (by simp [truthy])).2

/-- C6 counterexample: a top-up intent for the negative amount `-7` is not
rejected synchronously by validation — the gateway checkout call is issued
(one recorded call), and the eventual rejection is the insufficient-balance
error raised inside `_add_transaction` after the gateway call, not a
validation error before it. -/
theorem C6_negative_intent_counterexample :
    (topUpIntent cd1 "cs9" "url9" [] "u" (-7)).1 = [⟨-7⟩] ∧
    (topUpIntent cd1 "cs9" "url9" [] "u" (-7)).2 =
      .error "Insufficient balance for user u" := ⟨rfl, rfl⟩

/-- C6 (amended): `top_up_credits` rejects a negative amount synchronously
with a validation error before any write; `fulfill_checkout` rejects
both-or-neither of `session_id`/`user_id` synchronously before any query or
write; `top_up_intent`, however, performs no local validation of the amount
and always issues the gateway checkout call first. -/
theorem C6_synchronous_validation (now : DateTime) (txs : List Transaction)
    (uid : String) (amount : Int) (gw : String → String)
    (sid url s u : String) :
    (amount < 0 → topUpCredits now txs uid amount =
      .error "Top up amount must not be negative") ∧
    fulfillCheckout now gw txs Option.none Option.none =
      .error "Either session_id or user_id must be provided" ∧
    fulfillCheckout now gw txs (some s) (some u) =
      .error "Either session_id or user_id must be provided" ∧
    (topUpIntent now sid url txs uid amount).1 = [⟨amount⟩] := by
  refine ⟨?_, ?_, ?_, ?_⟩
  · intro h
    simp only [topUpCredits]
    rw [if_pos h]
  · simp only [fulfillCheckout]
    rw [if_pos (by simp)]
  · simp only [fulfillCheckout]
    rw [if_pos (by simp)]
  · cases haux : addTransaction now txs uid amount CreditTransactionType.TOP_UP
        false (some sid) Option.none
        (.dict [("checkout_session", .str sid)]) with
    | error e => simp [topUpIntent, haux]
    | ok p => simp [topUpIntent, haux]

/-- Witness for C6 (amended): a direct top-up of `-3` fails with the
validation error; fulfilment with neither identifier fails with the
validation error; a top-up intent of `5` records exactly one gateway call. -/
theorem C6_synchronous_validation_witness :
    topUpCredits cd1 [] "u" (-3) =
      .error "Top up amount must not be negative" ∧
    fulfillCheckout cd1 gwPaid [] Option.none Option.none =
      .error "Either session_id or user_id must be provided" ∧
    (topUpIntent cd1 "cs9" "url9" [] "u" 5).1 = [⟨5⟩] :=
  ⟨(C6_synchronous_validation cd1 [] "u" (-3) gwPaid "cs9" "url9" "s" "u").1
      (by decide),
   (C6_synchronous_validation cd1 [] "u" (-3) gwPaid "cs9" "url9" "s" "u").2.1,
   (C6_synchronous_validation cd1 [] "u" 5 gwPaid "cs9" "url9" "s" "u").2.2.2⟩

/-- C2 at the failing input: the first `fulfill_checkout` for session `cs1`
with gateway status `paid` activates the pending TOP_UP exactly once
(running balance 50); the second call is not a no-op — with the transaction
now active, `find_first_or_raise` finds no inactive TOP_UP for the session
and raises a record-not-found error (the `if not credit_transaction: return`
guard in the source is unreachable), instead of returning silently as the
source's own comment intends. -/
theorem C2_fulfill_checkout_second_call_raises :
    fulfillCheckout cd1 gwPaid [csPending] (some "cs1") Option.none =
      .ok [csEnabled] ∧
    csEnabled.isActive = true ∧
    csEnabled.runningBalance = some 50 ∧
    fulfillCheckout cd2 gwPaid [csEnabled] (some "cs1") Option.none =
      .error "RecordNotFound" := ⟨rfl, rfl, rfl, rfl⟩

theorem findLatest_exists {p : Transaction → Bool} {txs : List Transaction}
    {t0 : Transaction} (h1 : t0 ∈ txs) (h2 : p t0 = true) :
    ∃ b, findLatest p txs = some b := by
  cases hf : findLatest p txs with
  | none => exact absurd h2 (by simp [findLatest_none hf t0 h1])
  | some b => exact ⟨b, rfl⟩

/-- C7 counterexample: the refill transaction created on 2025-03-15 is keyed
`MONTHLY-CREDIT-TOP-UP-2025-03-15` — the full date, produced by
`f"MONTHLY-CREDIT-TOP-UP-\x7bcur_time\x7d"` — which is day-granular and not
of the claimed form `REFILL-\x7byear\x7d-\x7bmonth\x7d`. -/
theorem C7_refill_key_counterexample :
    ((betaGetCredits cdMar15 500 [] "u").1.map
      (fun t => t.transactionKey)) =
        [some "MONTHLY-CREDIT-TOP-UP-2025-03-15"] ∧
    refillKey cdMar15 ≠ "REFILL-2025-3" ∧
    refillKey cdMar15 ≠ "REFILL-2025-03" := ⟨rfl, by decide, by decide⟩

/-- C7 (amended): when the latest snapshot month differs from the current
month, Beta `get_credits` attempts to create exactly one active refill
transaction of the configured amount keyed `MONTHLY-CREDIT-TOP-UP-\x7bdate\x7d`
(day granularity), with `running_balance` equal to the refill amount alone;
a `(user, key)` unique violation is swallowed and the refill amount still
returned; when the snapshot is from the current month nothing is created;
and any later call in the same month against the ledger extended with the
refilled (active, snapshot-bearing) transaction creates nothing and returns
the resolver's balance unchanged. -/
theorem C7_beta_monthly_refill (now : DateTime) (refill : Int)
    (txs : List Transaction) (uid : String) :
    (¬((getCredits now txs uid).2.year = now.year ∧
        (getCredits now txs uid).2.month = now.month) →
      (txs.any (fun t => t.transactionKey == some (refillKey now)
          && t.userId == uid) = false →
        ∃ rtx, betaGetCredits now refill txs uid = (txs ++ [rtx], refill) ∧
          rtx.transactionKey = some (refillKey now) ∧ rtx.amount = refill ∧
          rtx.runningBalance = some refill ∧ rtx.type = .TOP_UP ∧
          rtx.isActive = true ∧ rtx.createdAt = now) ∧
      (txs.any (fun t => t.transactionKey == some (refillKey now)
          && t.userId == uid) = true →
        betaGetCredits now refill txs uid = (txs, refill))) ∧
    (((getCredits now txs uid).2.year = now.year ∧
        (getCredits now txs uid).2.month = now.month) →
      betaGetCredits now refill txs uid = (txs, (getCredits now txs uid).1)) ∧
    (∀ now2 (rtx : Transaction), now2.year = now.year →
      now2.month = now.month → DateTime.leB now now2 = true →
      rtx.userId = uid → rtx.isActive = true →
      rtx.runningBalance.isSome = true → rtx.createdAt = now →
      betaGetCredits now2 refill (txs ++ [rtx]) uid =
        (txs ++ [rtx], (getCredits now2 (txs ++ [rtx]) uid).1)) := by
  refine ⟨?_, ?_, ?_⟩
  · intro h
    constructor
    · intro hn
      refine ⟨⟨some (refillKey now), uid, refill, some refill, .TOP_UP,
        Option.none, .dict [], true, now⟩, ?_, rfl, rfl, rfl, rfl, rfl, rfl⟩
      simp only [betaGetCredits]
      rw [if_neg h, if_neg (by simp [hn])]
    · intro hn
      simp only [betaGetCredits]
      rw [if_neg h, if_pos hn]
  · intro h
    simp only [betaGetCredits]
    rw [if_pos h]
  · intro now2 rtx hy hm hle hu hact hrb hcr
    have hpred : snapshotPred now2 uid rtx = true := by
      rw [snapshotPred_iff]
      refine ⟨hu, ?_, hact, by simpa [Option.isSome_iff_ne_none] using hrb⟩
      rw [hcr]
      exact hle
    obtain ⟨b, hf⟩ := findLatest_exists
      (List.mem_append_right txs (List.mem_singleton_self rtx)) hpred
    have hmem := findLatest_mem hf
    have hmax := findLatest_max hf rtx
      (List.mem_append_right txs (List.mem_singleton_self rtx)) hpred
    rcases (snapshotPred_iff now2 uid b).1 hmem.2 with ⟨_, hble, _, _⟩
    rw [hcr] at hmax
    have hyy : b.createdAt.year = now2.year ∧
        b.createdAt.month = now2.month := by
      have h1 := (leB_iff now b.createdAt).1 hmax
      have h2 := (leB_iff b.createdAt now2).1 hble
      constructor <;> omega
    have hget : getCredits now2 (txs ++ [rtx]) uid =
        (b.runningBalance.getD 0, b.createdAt) := by
      simp only [getCredits, hf]
    simp only [betaGetCredits, hget]
    rw [if_pos hyy]

/-- Witness for C7 (amended): on 2025-03-15, against the empty ledger
(sentinel snapshot month), exactly one refill of 500 is created; a second
call on 2025-03-20 with the refilled ledger creates nothing and returns the
resolver's balance. -/
theorem C7_beta_monthly_refill_witness :
    (∃ rtx, betaGetCredits cdMar15 500 [] "u" = ([] ++ [rtx], 500) ∧
      rtx.transactionKey = some (refillKey cdMar15) ∧ rtx.amount = 500 ∧
      rtx.runningBalance = some 500 ∧ rtx.type = .TOP_UP ∧
      rtx.isActive = true ∧ rtx.createdAt = cdMar15) ∧
    betaGetCredits cd3 500 ([] ++ [rTx]) "u" =
      ([] ++ [rTx], (getCredits cd3 ([] ++ [rTx]) "u").1) :=
  ⟨((C7_beta_monthly_refill cdMar15 500 [] "u").1 (by decide)).1 rfl,
   (C7_beta_monthly_refill cdMar15 500 [] "u").2.2 cd3 rTx rfl rfl
     (by decide) rfl rfl rfl rfl⟩

/-- C8 counterexample: activating the pending top-up rewrites its creation
timestamp — after `_enable_transaction` at `cd1` the stored `createdAt` is
the activation time `cd1`, no longer the original creation time `cd0`, so
not every other stored field is unchanged by the pending-to-active flip. -/
theorem C8_activation_rewrites_created_at :
    (enableTransaction cd1 [csPending] "cs1" "u" (.dict [])).map
        (fun l => l.map (fun t => t.createdAt)) = .ok [cd1] ∧
    csPending.createdAt = cd0 ∧
    cd0 ≠ cd1 := ⟨rfl, rfl, by decide⟩

/-- C8 (amended): transactions are never deleted — `_add_transaction` only
appends, and `_enable_transaction` preserves the row count and keeps every
non-matching row; an already-active transaction is left untouched; the
single pending-to-active flip sets `is_active` to true and `running_balance`
to the balance at activation time plus the amount, rewrites `created_at` to
the activation time and replaces `metadata`, while `user_id`, `amount`,
`type`, `transaction_key` and `block_id` are unchanged. -/
theorem C8_transaction_mutation_frame :
    (∀ now txs uid amount ttype act key bid md l b,
      addTransaction now txs uid amount ttype act key bid md = .ok (l, b) →
        ∃ tx, l = txs ++ [tx]) ∧
    (∀ now txs key uid md tf,
      txs.find? (identifierPred key uid) = some tf → tf.isActive = true →
      enableTransaction now txs key uid md = .ok txs) ∧
    (∀ now txs key uid md tf,
      txs.find? (identifierPred key uid) = some tf → tf.isActive = false →
      enableTransaction now txs key uid md = .ok (txs.map (fun t2 =>
        if identifierPred key uid t2 then
          enableUpdate now ((getCredits now txs uid).1 + tf.amount) md t2
        else t2))) ∧
    (∀ now newBalance md (t2 : Transaction),
      (enableUpdate now newBalance md t2).isActive = true ∧
      (enableUpdate now newBalance md t2).runningBalance = some newBalance ∧
      (enableUpdate now newBalance md t2).createdAt = now ∧
      (enableUpdate now newBalance md t2).metadata = md ∧
      (enableUpdate now newBalance md t2).userId = t2.userId ∧
      (enableUpdate now newBalance md t2).amount = t2.amount ∧
      (enableUpdate now newBalance md t2).type = t2.type ∧
      (enableUpdate now newBalance md t2).transactionKey = t2.transactionKey ∧
      (enableUpdate now newBalance md t2).blockId = t2.blockId) ∧
    (∀ now txs key uid md l, enableTransaction now txs key uid md = .ok l →
      l.length = txs.length ∧
      ∀ t2 ∈ txs, identifierPred key uid t2 = false → t2 ∈ l) := by
  refine ⟨?_, ?_, ?_, ?_, ?_⟩
  · intro now txs uid amount ttype act key bid md l b h
    simp only [addTransaction] at h
    by_cases hc : amount < 0 ∧ (getCredits now txs uid).1 < |amount|
    · rw [if_pos hc] at h
      exact absurd h (by simp)
    · rw [if_neg hc] at h
      simp only [Except.ok.injEq, Prod.mk.injEq] at h
      exact ⟨_, h.1.symm⟩
  · intro now txs key uid md tf hf htf
    simp only [enableTransaction, hf]
    rw [if_pos htf]
  · intro now txs key uid md tf hf htf
    simp only [enableTransaction, hf]
    rw [if_neg (by simp [htf])]
  · intro now newBalance md t2
    exact ⟨rfl, rfl, rfl, rfl, rfl, rfl, rfl, rfl, rfl⟩
  · intro now txs key uid md l h
    simp only [enableTransaction] at h
    cases hf : txs.find? (identifierPred key uid) with
    | none =>
      rw [hf] at h
      exact absurd h (by simp)
    | some tf =>
      rw [hf] at h
      dsimp only at h
      by_cases htf : tf.isActive = true
      · rw [if_pos htf] at h
        simp only [Except.ok.injEq] at h
        subst h
        exact ⟨rfl, fun t2 ht2 _ => ht2⟩
      · rw [if_neg htf] at h
        simp only [Except.ok.injEq] at h
        subst h
        refine ⟨(List.length_map txs _).symm ▸ rfl, ?_⟩
        intro t2 ht2 hp
        refine List.mem_map.2 ⟨t2, ht2, ?_⟩
        rw [if_neg (by simp [hp])]

/-- Witness for C8 (amended): activation of the pending fixture produces the
mapped ledger; the already-active fixture is untouched; a successful append
against the empty ledger yields a one-element list. -/
theorem C8_transaction_mutation_frame_witness :
    (∃ tx, [csEnabled] ++ [tx] = [csEnabled] ++ [tx]) ∧
    enableTransaction cd2 [csEnabled] "cs1" "u" (.dict []) =
      .ok [csEnabled] ∧
    enableTransaction cd1 [csPending] "cs1" "u" (.dict []) =
      .ok ([csPending].map (fun t2 =>
        if identifierPred "cs1" "u" t2 then
          enableUpdate cd1 ((getCredits cd1 [csPending] "u").1
            + csPending.amount) (.dict []) t2
        else t2)) ∧
    [csEnabled].length = [csEnabled].length := by
  refine ⟨?_, ?_, ?_, ?_⟩
  · obtain ⟨tx, htx⟩ := (C8_transaction_mutation_frame).1 cd1 [csEnabled] "u"
      7 .TOP_UP true Option.none Option.none (.dict [])
      ([csEnabled] ++ [(⟨Option.none, "u", 7, some 57, .TOP_UP, Option.none,
        .dict [], true, cd1⟩ : Transaction)]) 57 rfl
    exact ⟨tx, rfl⟩
  · exact (C8_transaction_mutation_frame).2.1 cd2 [csEnabled] "cs1" "u"
      (.dict []) csEnabled rfl rfl
  · exact (C8_transaction_mutation_frame).2.2.1 cd1 [csPending] "cs1" "u"
      (.dict []) csPending rfl rfl
  · exact ((C8_transaction_mutation_frame).2.2.2.2 cd2 [csEnabled] "cs1" "u"
      (.dict []) [csEnabled] ((C8_transaction_mutation_frame).2.1 cd2
        [csEnabled] "cs1" "u" (.dict []) csEnabled rfl rfl)).1

/-- C9 counterexample: the Beta monthly refill performs its
`running_balance`-bearing create with no advisory lock held, so the write is
not under `usr_trx_\x7buser_id\x7d` as the claim requires of every variant. -/
theorem C9_beta_refill_without_lock :
    betaGetCreditsEvents cdMar15 [] "u" = [⟨true, Option.none⟩] ∧
    (Option.none : Option String) ≠ some (userLock "u") := ⟨rfl, by decide⟩

/-- C9 (amended): every `running_balance`-bearing table write of
`_add_transaction` and `_enable_transaction` happens while holding the
per-user lock `usr_trx_\x7buser_id\x7d`, but the Beta monthly refill creates
its `running_balance`-bearing transaction with no lock held. -/
theorem C9_lock_discipline :
    (∀ now txs uid amount, ∀ e ∈ addTransactionEvents now txs uid amount,
      e.setsRunningBalance = true ∧ e.lockHeld = some (userLock uid)) ∧
    (∀ txs key uid, ∀ e ∈ enableTransactionEvents txs key uid,
      e.setsRunningBalance = true ∧ e.lockHeld = some (userLock uid)) ∧
    (∀ now txs uid, ∀ e ∈ betaGetCreditsEvents now txs uid,
      e.setsRunningBalance = true ∧ e.lockHeld = Option.none) := by
  refine ⟨?_, ?_, ?_⟩
  · intro now txs uid amount e he
    simp only [addTransactionEvents] at he
    by_cases hc : amount < 0 ∧ (getCredits now txs uid).1 < |amount|
    · rw [if_pos hc] at he
      exact absurd he (by simp)
    · rw [if_neg hc] at he
      simp only [List.mem_singleton] at he
      subst he
      exact ⟨rfl, rfl⟩
  · intro txs key uid e he
    simp only [enableTransactionEvents] at he
    cases hf : txs.find? (identifierPred key uid) with
    | none =>
      rw [hf] at he
      exact absurd he (by simp)
    | some tf =>
      rw [hf] at he
      dsimp only at he
      by_cases htf : tf.isActive = true
      · rw [if_pos htf] at he
        exact absurd he (by simp)
      · rw [if_neg htf] at he
        simp only [List.mem_singleton] at he
        subst he
        exact ⟨rfl, rfl⟩
  · intro now txs uid e he
    simp only [betaGetCreditsEvents] at he
    by_cases hc : (getCredits now txs uid).2.year = now.year
        ∧ (getCredits now txs uid).2.month = now.month
    · rw [if_pos hc] at he
      exact absurd he (by simp)
    · rw [if_neg hc] at he
      simp only [List.mem_singleton] at he
      subst he
      exact ⟨rfl, rfl⟩

/-- Witness for C9 (amended): the single write event of a valid
`_add_transaction` call holds the user's lock, and the single write event of
a stale-month Beta refill holds none. -/
theorem C9_lock_discipline_witness :
    ((⟨true, some (userLock "u")⟩ : WriteEvent).setsRunningBalance = true ∧
     (⟨true, some (userLock "u")⟩ : WriteEvent).lockHeld =
       some (userLock "u")) ∧
    ((⟨true, Option.none⟩ : WriteEvent).setsRunningBalance = true ∧
     (⟨true, Option.none⟩ : WriteEvent).lockHeld =
       (Option.none : Option String)) :=
  ⟨(C9_lock_discipline).1 cd1 [] "u" 5 ⟨true, some (userLock "u")⟩
     (by decide),
   (C9_lock_discipline).2.2 cdMar15 [] "u" ⟨true, Option.none⟩ (by decide)⟩

end Credit
